import Mathlib

/-!
Verification of the google-calendar-middleware synchronization engine.

The middleware (src/cal_middleware.js and its variants) converts between the
registry's display date format "MMM dd yyyy hh:mm a" and ISO-8601 instants
via the luxon library, extracts record ids from free text, and orchestrates
create/update calls against the calendar and registry APIs.

This file gives a shallow embedding:
* a proleptic-Gregorian civil-date kernel (the calendar arithmetic performed
  by luxon's DateTime), at minute granularity, using the standard
  days-from-civil / civil-from-days algorithms;
* a timezone model covering the zones exercised by the code: UTC and
  America/New_York (post-2007 US DST rules, as in the IANA database);
* faithful models of the date-conversion functions, the record-id
  extraction, and the express route handlers, the latter as functions from
  a request plus an environment of remote-call outcomes to a response and
  a trace of outbound network calls.
-/

namespace CalMw

/-! ## Civil-date kernel

Days are counted from 0000-03-01 (the era origin of the standard civil
calendar algorithms); 1970-01-01 is day 719468.  `daysOfCivil` and
`civilOfDays` are the days-from-civil and civil-from-days algorithms used
by date libraries (luxon computes the same Gregorian correspondence). -/

def isLeap (y : Nat) : Bool := (y % 4 == 0 && y % 100 != 0) || y % 400 == 0

theorem isLeap_iff (y : Nat) :
    isLeap y = true ↔ ((y % 4 = 0 ∧ y % 100 ≠ 0) ∨ y % 400 = 0) := by
  simp [isLeap]

theorem isLeap_eq_false (y : Nat)
    (h : ¬((y % 4 = 0 ∧ y % 100 ≠ 0) ∨ y % 400 = 0)) : isLeap y = false := by
  rcases Bool.eq_false_or_eq_true (isLeap y) with hL | hL
  · exact absurd ((isLeap_iff y).mp hL) h
  · exact hL

def monthLen (y m : Nat) : Nat :=
  if m = 2 then (if isLeap y then 29 else 28)
  else if m = 4 ∨ m = 6 ∨ m = 9 ∨ m = 11 then 30 else 31

/-- Day number (since 0000-03-01) of the civil date `(y, m, d)`. -/
def daysOfCivil (y m d : Nat) : Nat :=
  let y' := if m ≤ 2 then y - 1 else y
  let era := y' / 400
  let yoe := y' % 400
  let mp := (m + 9) % 12
  let doy := (153 * mp + 2) / 5 + (d - 1)
  era * 146097 + (365 * yoe + yoe / 4 - yoe / 100 + doy)

/-- Year-of-era from day-of-era. -/
def yoeOfDoe (doe : Nat) : Nat :=
  (doe - doe / 1460 + doe / 36524 - doe / 146096) / 365

/-- Civil date (within one 400-year era) from a day-of-era `doe < 146097`. -/
def civilOfDoe (doe : Nat) : Nat × Nat × Nat :=
  let yoe := yoeOfDoe doe
  let doy := doe - (365 * yoe + yoe / 4 - yoe / 100)
  let mp := (5 * doy + 2) / 153
  let d := doy - (153 * mp + 2) / 5 + 1
  let m := if mp < 10 then mp + 3 else mp - 9
  (yoe + (if m ≤ 2 then 1 else 0), m, d)

/-- Civil date of a day number (since 0000-03-01). -/
def civilOfDays (z : Nat) : Nat × Nat × Nat :=
  let c := civilOfDoe (z % 146097)
  (z / 146097 * 400 + c.1, c.2.1, c.2.2)

/-- Validity of a civil triple (year 0 is allowed only from March on,
because the era origin is 0000-03-01). -/
def validCivil (y m d : Nat) : Prop :=
  1 ≤ m ∧ m ≤ 12 ∧ 1 ≤ d ∧ d ≤ monthLen y m ∧ (m ≤ 2 → 1 ≤ y)

instance (y m d : Nat) : Decidable (validCivil y m d) := by
  unfold validCivil; infer_instance

/-- Year-of-era recovery: the day-of-era formula inverts the year-of-era
accumulation, the arithmetic heart of `civilOfDoe`. -/
theorem yoe_recover (yoe doy doe : Nat) (h1 : yoe ≤ 399) (h2 : doy ≤ 365)
    (h3 : doy = 365 → ((yoe + 1) % 4 = 0 ∧ (yoe + 1) % 100 ≠ 0) ∨ yoe = 399)
    (h4 : doe = 365 * yoe + yoe / 4 - yoe / 100 + doy) :
    yoeOfDoe doe = yoe := by
  unfold yoeOfDoe
  by_cases hd : doy = 365
  · subst hd
    rcases h3 rfl with ⟨ha, hb⟩ | ha
    · have h100 : yoe % 100 ≠ 99 := by omega
      have e1 : doe / 146096 = 0 := by omega
      have e2 : doe / 36524 = yoe / 100 := by omega
      have e3 : doe / 1460 = yoe / 4 + 1 := by omega
      omega
    · subst ha
      omega
  · have e1 : doe / 146096 = 0 := by omega
    have e2 : doe / 36524 = yoe / 100 := by omega
    have e3 : doe / 1460 = yoe / 4 +
        (if 1460 + yoe / 100 ≤ yoe / 4 + 365 * (yoe % 4) + doy then 1 else 0) := by
      split <;> omega
    omega

/-- Computation of `civilOfDoe` on a day-of-era presented as a year-of-era
accumulation plus a day-of-year whose month-from-day-of-year value is `mp`. -/
theorem civilOfDoe_eq (yoe doy doe mp : Nat) (h1 : yoe ≤ 399) (h2 : doy ≤ 365)
    (h3 : doy = 365 → ((yoe + 1) % 4 = 0 ∧ (yoe + 1) % 100 ≠ 0) ∨ yoe = 399)
    (h4 : doe = 365 * yoe + yoe / 4 - yoe / 100 + doy)
    (hmp : (5 * doy + 2) / 153 = mp) :
    civilOfDoe doe =
      (yoe + (if 10 ≤ mp then 1 else 0),
       (if mp < 10 then mp + 3 else mp - 9),
       doy - (153 * mp + 2) / 5 + 1) := by
  have hy := yoe_recover yoe doy doe h1 h2 h3 h4
  have hmp11 : mp ≤ 11 := by omega
  simp only [civilOfDoe]
  rw [hy, show doe - (365 * yoe + yoe / 4 - yoe / 100) = doy by omega, hmp]
  by_cases h10 : mp < 10
  · simp only [if_pos h10, if_neg (show ¬10 ≤ mp by omega),
      if_neg (show ¬mp + 3 ≤ 2 by omega)]
  · simp only [if_neg h10, if_pos (show 10 ≤ mp by omega),
      if_pos (show mp - 9 ≤ 2 by omega)]

/-- `civilOfDays` splits into the era and the within-era conversion. -/
theorem civilOfDays_decomp (era doe : Nat) (h : doe ≤ 146096) :
    civilOfDays (era * 146097 + doe) =
      (era * 400 + (civilOfDoe doe).1, (civilOfDoe doe).2.1, (civilOfDoe doe).2.2) := by
  simp only [civilOfDays]
  rw [show (era * 146097 + doe) % 146097 = doe by omega,
      show (era * 146097 + doe) / 146097 = era by omega]

/-- Core of the civil-to-days roundtrip, with the month data abstracted. -/
theorem rt2_core (y m d mp C : Nat)
    (hmp12 : mp = (m + 9) % 12) (hC : C = (153 * mp + 2) / 5)
    (hm1 : 1 ≤ m) (hm2 : m ≤ 12) (hd1 : 1 ≤ d)
    (hdoy : C + (d - 1) ≤ 365)
    (hleap : C + (d - 1) = 365 → isLeap y = true ∧ m ≤ 2)
    (hmprec : (5 * (C + (d - 1)) + 2) / 153 = mp)
    (hy2 : m ≤ 2 → 1 ≤ y) :
    civilOfDays (daysOfCivil y m d) = (y, m, d) := by
  by_cases hle : m ≤ 2
  · have hy1 : 1 ≤ y := hy2 hle
    have hmpge : 10 ≤ mp := by clear hleap hC hmprec hdoy; omega
    have hl3 : C + (d - 1) = 365 →
        ((((y - 1) % 400) + 1) % 4 = 0 ∧ (((y - 1) % 400) + 1) % 100 ≠ 0) ∨
          (y - 1) % 400 = 399 := by
      intro h365
      have hl := (hleap h365).1
      simp only [isLeap, Bool.or_eq_true, Bool.and_eq_true, beq_iff_eq, bne_iff_ne,
        ne_eq, decide_eq_true_eq] at hl
      omega
    have hz : daysOfCivil y m d =
        (y - 1) / 400 * 146097 +
          (365 * ((y - 1) % 400) + ((y - 1) % 400) / 4 - ((y - 1) % 400) / 100
            + (C + (d - 1))) := by
      simp only [daysOfCivil, if_pos hle]
      omega
    rw [hz, civilOfDays_decomp _ _ (by omega),
        civilOfDoe_eq ((y - 1) % 400) (C + (d - 1)) _ mp (by omega) hdoy hl3 rfl hmprec,
        if_pos hmpge, if_neg (show ¬mp < 10 by omega)]
    simp only [Prod.mk.injEq]
    exact ⟨by omega, by omega, by omega⟩
  · have hmplt : mp < 10 := by clear hleap hC hmprec hdoy; omega
    have hl3 : C + (d - 1) = 365 →
        (((y % 400) + 1) % 4 = 0 ∧ ((y % 400) + 1) % 100 ≠ 0) ∨ y % 400 = 399 := by
      intro h365
      exact absurd (hleap h365).2 hle
    have hz : daysOfCivil y m d =
        y / 400 * 146097 +
          (365 * (y % 400) + (y % 400) / 4 - (y % 400) / 100 + (C + (d - 1))) := by
      simp only [daysOfCivil, if_neg hle]
      omega
    rw [hz, civilOfDays_decomp _ _ (by omega),
        civilOfDoe_eq (y % 400) (C + (d - 1)) _ mp (by omega) hdoy hl3 rfl hmprec,
        if_neg (show ¬10 ≤ mp by omega), if_pos hmplt]
    simp only [Prod.mk.injEq]
    exact ⟨by omega, by omega, by omega⟩

/-- Civil-to-days-to-civil roundtrip for valid dates. -/
theorem civilOfDays_daysOfCivil (y m d : Nat) (h : validCivil y m d) :
    civilOfDays (daysOfCivil y m d) = (y, m, d) := by
  obtain ⟨hm1, hm2, hd1, hd2, hy2⟩ := h
  interval_cases m
  · norm_num [monthLen] at hd2
    exact rt2_core y 1 d 10 306 rfl rfl (by norm_num) (by norm_num) hd1
      (by omega) (fun h365 => absurd h365 (by omega)) (by omega) hy2
  · have hd29 : d ≤ 29 := by
      rcases Bool.eq_false_or_eq_true (isLeap y) with hL | hL <;>
        simp [monthLen, hL] at hd2 <;> omega
    have hfeb : d = 29 → isLeap y = true := by
      intro h29
      subst h29
      rcases Bool.eq_false_or_eq_true (isLeap y) with hL | hL
      · exact hL
      · simp [monthLen, hL] at hd2
    exact rt2_core y 2 d 11 337 rfl rfl (by norm_num) (by norm_num) hd1
      (by omega) (fun h365 => ⟨hfeb (by omega), by norm_num⟩) (by omega) hy2
  · norm_num [monthLen] at hd2
    exact rt2_core y 3 d 0 0 rfl rfl (by norm_num) (by norm_num) hd1
      (by omega) (fun h365 => absurd h365 (by omega)) (by omega) hy2
  · norm_num [monthLen] at hd2
    exact rt2_core y 4 d 1 31 rfl rfl (by norm_num) (by norm_num) hd1
      (by omega) (fun h365 => absurd h365 (by omega)) (by omega) hy2
  · norm_num [monthLen] at hd2
    exact rt2_core y 5 d 2 61 rfl rfl (by norm_num) (by norm_num) hd1
      (by omega) (fun h365 => absurd h365 (by omega)) (by omega) hy2
  · norm_num [monthLen] at hd2
    exact rt2_core y 6 d 3 92 rfl rfl (by norm_num) (by norm_num) hd1
      (by omega) (fun h365 => absurd h365 (by omega)) (by omega) hy2
  · norm_num [monthLen] at hd2
    exact rt2_core y 7 d 4 122 rfl rfl (by norm_num) (by norm_num) hd1
      (by omega) (fun h365 => absurd h365 (by omega)) (by omega) hy2
  · norm_num [monthLen] at hd2
    exact rt2_core y 8 d 5 153 rfl rfl (by norm_num) (by norm_num) hd1
      (by omega) (fun h365 => absurd h365 (by omega)) (by omega) hy2
  · norm_num [monthLen] at hd2
    exact rt2_core y 9 d 6 184 rfl rfl (by norm_num) (by norm_num) hd1
      (by omega) (fun h365 => absurd h365 (by omega)) (by omega) hy2
  · norm_num [monthLen] at hd2
    exact rt2_core y 10 d 7 214 rfl rfl (by norm_num) (by norm_num) hd1
      (by omega) (fun h365 => absurd h365 (by omega)) (by omega) hy2
  · norm_num [monthLen] at hd2
    exact rt2_core y 11 d 8 245 rfl rfl (by norm_num) (by norm_num) hd1
      (by omega) (fun h365 => absurd h365 (by omega)) (by omega) hy2
  · norm_num [monthLen] at hd2
    exact rt2_core y 12 d 9 275 rfl rfl (by norm_num) (by norm_num) hd1
      (by omega) (fun h365 => absurd h365 (by omega)) (by omega) hy2

/-- The calendar successor of a civil date. -/
def nextDay (c : Nat × Nat × Nat) : Nat × Nat × Nat :=
  if c.2.2 < monthLen c.1 c.2.1 then (c.1, c.2.1, c.2.2 + 1)
  else if c.2.1 < 12 then (c.1, c.2.1 + 1, 1)
  else (c.1 + 1, 1, 1)

theorem monthLen_pos (y m : Nat) : 1 ≤ monthLen y m := by
  unfold monthLen
  split_ifs <;> omega

theorem nextDay_spec (y m d : Nat) (h : validCivil y m d) :
    validCivil (nextDay (y, m, d)).1 (nextDay (y, m, d)).2.1 (nextDay (y, m, d)).2.2 ∧
    daysOfCivil (nextDay (y, m, d)).1 (nextDay (y, m, d)).2.1 (nextDay (y, m, d)).2.2
      = daysOfCivil y m d + 1 := by
  obtain ⟨hm1, hm2, hd1, hd2, hy2⟩ := h
  by_cases hlt : d < monthLen y m
  · simp only [nextDay, if_pos hlt]
    refine ⟨⟨hm1, hm2, by omega, by omega, hy2⟩, ?_⟩
    by_cases hle : m ≤ 2
    · simp only [daysOfCivil, if_pos hle]; omega
    · simp only [daysOfCivil, if_neg hle]; omega
  · have hdeq : d = monthLen y m := by omega
    by_cases hm12 : m < 12
    · simp only [nextDay, if_neg hlt, if_pos hm12]
      refine ⟨⟨by omega, by omega, le_refl 1, monthLen_pos y (m + 1),
        fun hc => hy2 (by omega)⟩, ?_⟩
      interval_cases m
      · norm_num [monthLen] at hdeq
        simp only [daysOfCivil]
        norm_num
        omega
      · have hy1 : 1 ≤ y := hy2 (by norm_num)
        by_cases hP : (y % 4 = 0 ∧ y % 100 ≠ 0) ∨ y % 400 = 0
        · have hd' : d = 29 := by
            rw [hdeq]
            simp [monthLen, (isLeap_iff y).mpr hP]
          subst hd'
          simp only [daysOfCivil]
          norm_num
          rcases hP with ⟨h4, h100⟩ | h400 <;> omega
        · have hd' : d = 28 := by
            rw [hdeq]
            simp [monthLen, isLeap_eq_false y hP]
          subst hd'
          have h4 : ¬(y % 4 = 0) ∨ (y % 100 = 0 ∧ ¬(y % 400 = 0)) := by tauto
          simp only [daysOfCivil]
          norm_num
          rcases h4 with h4 | ⟨h100, h400⟩ <;> omega
      · norm_num [monthLen] at hdeq
        simp only [daysOfCivil]
        norm_num
        omega
      · norm_num [monthLen] at hdeq
        simp only [daysOfCivil]
        norm_num
        omega
      · norm_num [monthLen] at hdeq
        simp only [daysOfCivil]
        norm_num
        omega
      · norm_num [monthLen] at hdeq
        simp only [daysOfCivil]
        norm_num
        omega
      · norm_num [monthLen] at hdeq
        simp only [daysOfCivil]
        norm_num
        omega
      · norm_num [monthLen] at hdeq
        simp only [daysOfCivil]
        norm_num
        omega
      · norm_num [monthLen] at hdeq
        simp only [daysOfCivil]
        norm_num
        omega
      · norm_num [monthLen] at hdeq
        simp only [daysOfCivil]
        norm_num
        omega
      · norm_num [monthLen] at hdeq
        simp only [daysOfCivil]
        norm_num
        omega
    · have hmeq : m = 12 := by omega
      subst hmeq
      norm_num [monthLen] at hdeq
      simp only [nextDay, if_neg hlt]
      norm_num
      refine ⟨⟨by omega, by omega, le_refl 1, by norm_num [monthLen], fun _ => by omega⟩, ?_⟩
      simp only [daysOfCivil]
      norm_num
      omega

/-- Every day number is realized by a valid civil date. -/
theorem exists_civil (z : Nat) : ∃ y m d, validCivil y m d ∧ daysOfCivil y m d = z := by
  induction z with
  | zero => exact ⟨0, 3, 1, by decide, by decide⟩
  | succ n ih =>
    obtain ⟨y, m, d, hv, hz⟩ := ih
    obtain ⟨hv', he⟩ := nextDay_spec y m d hv
    exact ⟨(nextDay (y, m, d)).1, (nextDay (y, m, d)).2.1, (nextDay (y, m, d)).2.2,
      hv', by rw [he, hz]⟩

/-- Days-to-civil-to-days roundtrip, with validity of the produced date. -/
theorem civilOfDays_spec (z : Nat) :
    validCivil (civilOfDays z).1 (civilOfDays z).2.1 (civilOfDays z).2.2 ∧
    daysOfCivil (civilOfDays z).1 (civilOfDays z).2.1 (civilOfDays z).2.2 = z := by
  obtain ⟨y, m, d, hv, hz⟩ := exists_civil z
  have h := civilOfDays_daysOfCivil y m d hv
  rw [hz] at h
  rw [h]
  exact ⟨hv, hz⟩

/-! ## Minute-level instants

The middleware's formats carry minute precision (seconds are always 00);
instants are modelled as minutes since the Unix epoch (1970-01-01T00:00Z). -/

structure CivilDT where
  year : Nat
  month : Nat
  day : Nat
  hour : Nat
  minute : Nat
deriving DecidableEq, Repr

def validCivilDT (c : CivilDT) : Prop :=
  validCivil c.year c.month c.day ∧ c.hour ≤ 23 ∧ c.minute ≤ 59

instance (c : CivilDT) : Decidable (validCivilDT c) := by
  unfold validCivilDT; infer_instance

/-- Minutes since the Unix epoch of a civil date-time read as UTC. -/
def minutesOfCivil (c : CivilDT) : Int :=
  ((daysOfCivil c.year c.month c.day : Int) - 719468) * 1440 + c.hour * 60 + c.minute

/-- Civil date-time (read as UTC) of an instant in minutes since the epoch. -/
def civilOfMinutes (t : Int) : CivilDT :=
  let n := (t + 719468 * 1440).toNat
  let c := civilOfDays (n / 1440)
  ⟨c.1, c.2.1, c.2.2, n % 1440 / 60, n % 1440 % 60⟩

theorem civilOfMinutes_minutesOfCivil (c : CivilDT) (h : validCivilDT c) :
    civilOfMinutes (minutesOfCivil c) = c := by
  obtain ⟨y, mo, d, hr, mi⟩ := c
  obtain ⟨hv, hh, hmi⟩ := h
  simp only at hv hh hmi
  have hn : (minutesOfCivil ⟨y, mo, d, hr, mi⟩ + 719468 * 1440).toNat
      = daysOfCivil y mo d * 1440 + (hr * 60 + mi) := by
    simp only [minutesOfCivil]
    omega
  simp only [civilOfMinutes, hn]
  rw [show (daysOfCivil y mo d * 1440 + (hr * 60 + mi)) / 1440 = daysOfCivil y mo d
        by omega,
      show (daysOfCivil y mo d * 1440 + (hr * 60 + mi)) % 1440 = hr * 60 + mi
        by omega,
      civilOfDays_daysOfCivil y mo d hv]
  simp only [CivilDT.mk.injEq]
  exact ⟨trivial, trivial, trivial, by omega, by omega⟩

theorem minutesOfCivil_civilOfMinutes (t : Int) (ht : 0 ≤ t + 719468 * 1440) :
    minutesOfCivil (civilOfMinutes t) = t ∧ validCivilDT (civilOfMinutes t) ∧
      (civilOfMinutes t).hour ≤ 23 ∧ (civilOfMinutes t).minute ≤ 59 := by
  have hspec := civilOfDays_spec ((t + 719468 * 1440).toNat / 1440)
  constructor
  · simp only [civilOfMinutes, minutesOfCivil, hspec.2]
    omega
  · refine ⟨⟨hspec.1, by simp only [civilOfMinutes]; omega,
      by simp only [civilOfMinutes]; omega⟩,
      by simp only [civilOfMinutes]; omega, by simp only [civilOfMinutes]; omega⟩

/-! ## Timezone model

The zones exercised by the middleware: UTC and America/New_York (the
hard-coded default).  New York follows the post-2007 US DST rule from the
IANA database: EDT (UTC-4) from 02:00 local standard time on the second
Sunday of March (07:00 UTC) until 02:00 local daylight time on the first
Sunday of November (06:00 UTC), EST (UTC-5) otherwise. -/

inductive Zone
  | utc
  | newYork
deriving DecidableEq, Repr

/-- Day of month of the first Sunday of the given month
(1970-01-01, day 719468, was a Thursday; day numbers count from a
Wednesday, so weekday `(days + 3) % 7` has 0 = Sunday). -/
def firstSundayOfMonth (y m : Nat) : Nat :=
  1 + (7 - (daysOfCivil y m 1 + 3) % 7) % 7

def dstStartNY (y : Nat) : Int :=
  ((daysOfCivil y 3 (firstSundayOfMonth y 3 + 7) : Int) - 719468) * 1440 + 7 * 60

def dstEndNY (y : Nat) : Int :=
  ((daysOfCivil y 11 (firstSundayOfMonth y 11) : Int) - 719468) * 1440 + 6 * 60

/-- UTC offset in minutes of a zone at the given instant. -/
def offsetAt (z : Zone) (t : Int) : Int :=
  match z with
  | .utc => 0
  | .newYork =>
    let y := (civilOfMinutes t).year
    if dstStartNY y ≤ t ∧ t < dstEndNY y then -240 else -300

theorem offsetAt_newYork_cases (t : Int) :
    offsetAt .newYork t = -240 ∨ offsetAt .newYork t = -300 := by
  simp only [offsetAt]
  split
  · exact Or.inl rfl
  · exact Or.inr rfl

/-- Model of a luxon `DateTime`: an instant paired with the zone it is
expressed in. -/
structure LDT where
  epochMin : Int
  zone : Zone
deriving DecidableEq, Repr

/-- Local wall-clock minutes of a `DateTime` (instant plus zone offset). -/
def LDT.localMin (dt : LDT) : Int := dt.epochMin + offsetAt dt.zone dt.epochMin

/-! ## Characters, digits, and fixed-width fields -/

def digitChar : Nat → Char
  | 0 => '0' | 1 => '1' | 2 => '2' | 3 => '3' | 4 => '4'
  | 5 => '5' | 6 => '6' | 7 => '7' | 8 => '8' | _ => '9'

def digitVal (c : Char) : Nat := c.toNat - 48

theorem digitVal_digitChar (n : Nat) (h : n < 10) : digitVal (digitChar n) = n := by
  interval_cases n <;> decide

theorem isDigit_digitChar (n : Nat) (h : n < 10) : (digitChar n).isDigit = true := by
  interval_cases n <;> decide

/-- Two-digit zero-padded rendering (`padStart(2, "0")` / luxon `dd`-style). -/
def pad2 (n : Nat) : List Char := [digitChar (n / 10), digitChar (n % 10)]

/-- Four-digit zero-padded rendering (luxon `yyyy`). -/
def pad4 (n : Nat) : List Char :=
  [digitChar (n / 1000), digitChar (n / 100 % 10), digitChar (n / 10 % 10),
    digitChar (n % 10)]

def read2 : List Char → Option (Nat × List Char)
  | c1 :: c2 :: r =>
    if c1.isDigit && c2.isDigit then some (digitVal c1 * 10 + digitVal c2, r) else none
  | _ => none

def read4 : List Char → Option (Nat × List Char)
  | c1 :: c2 :: c3 :: c4 :: r =>
    if c1.isDigit && c2.isDigit && c3.isDigit && c4.isDigit then
      some (digitVal c1 * 1000 + digitVal c2 * 100 + digitVal c3 * 10 + digitVal c4, r)
    else none
  | _ => none

def expectChar (c : Char) : List Char → Option (List Char)
  | x :: r => if x = c then some r else none
  | [] => none

theorem read2_pad2 (n : Nat) (h : n < 100) (r : List Char) :
    read2 (pad2 n ++ r) = some (n, r) := by
  have h1 : n / 10 < 10 := by omega
  have h2 : n % 10 < 10 := by omega
  simp only [pad2, List.cons_append, List.nil_append, read2,
    isDigit_digitChar _ h1, isDigit_digitChar _ h2, Bool.and_self, if_true,
    digitVal_digitChar _ h1, digitVal_digitChar _ h2]
  rw [show n / 10 * 10 + n % 10 = n by omega]

theorem read4_pad4 (n : Nat) (h : n < 10000) (r : List Char) :
    read4 (pad4 n ++ r) = some (n, r) := by
  have h1 : n / 1000 < 10 := by omega
  have h2 : n / 100 % 10 < 10 := by omega
  have h3 : n / 10 % 10 < 10 := by omega
  have h4 : n % 10 < 10 := by omega
  simp only [pad4, List.cons_append, List.nil_append, read4,
    isDigit_digitChar _ h1, isDigit_digitChar _ h2, isDigit_digitChar _ h3,
    isDigit_digitChar _ h4, Bool.and_self, if_true,
    digitVal_digitChar _ h1, digitVal_digitChar _ h2, digitVal_digitChar _ h3,
    digitVal_digitChar _ h4]
  rw [show n / 1000 * 1000 + n / 100 % 10 * 100 + n / 10 % 10 * 10 + n % 10 = n
    by omega]

theorem expectChar_cons (c : Char) (r : List Char) :
    expectChar c (c :: r) = some r := by
  simp [expectChar]

/-! ## The display grammar "MMM dd yyyy hh:mm a" -/

def monthAbbrev : Nat → List Char
  | 1 => ['J', 'a', 'n'] | 2 => ['F', 'e', 'b'] | 3 => ['M', 'a', 'r']
  | 4 => ['A', 'p', 'r'] | 5 => ['M', 'a', 'y'] | 6 => ['J', 'u', 'n']
  | 7 => ['J', 'u', 'l'] | 8 => ['A', 'u', 'g'] | 9 => ['S', 'e', 'p']
  | 10 => ['O', 'c', 't'] | 11 => ['N', 'o', 'v'] | _ => ['D', 'e', 'c']

def monthFromAbbrev (s : List Char) : Option Nat :=
  if s = ['J', 'a', 'n'] then some 1
  else if s = ['F', 'e', 'b'] then some 2
  else if s = ['M', 'a', 'r'] then some 3
  else if s = ['A', 'p', 'r'] then some 4
  else if s = ['M', 'a', 'y'] then some 5
  else if s = ['J', 'u', 'n'] then some 6
  else if s = ['J', 'u', 'l'] then some 7
  else if s = ['A', 'u', 'g'] then some 8
  else if s = ['S', 'e', 'p'] then some 9
  else if s = ['O', 'c', 't'] then some 10
  else if s = ['N', 'o', 'v'] then some 11
  else if s = ['D', 'e', 'c'] then some 12
  else none

def parseMonth : List Char → Option (Nat × List Char)
  | c1 :: c2 :: c3 :: r => (monthFromAbbrev [c1, c2, c3]).map (·, r)
  | _ => none

theorem parseMonth_monthAbbrev (m : Nat) (h1 : 1 ≤ m) (h2 : m ≤ 12) (r : List Char) :
    parseMonth (monthAbbrev m ++ r) = some (m, r) := by
  interval_cases m <;> rfl

def parseMeridiem : List Char → Option Bool
  | ['A', 'M'] => some false
  | ['P', 'M'] => some true
  | _ => none

/-- Parsed fields of the display format "MMM dd yyyy hh:mm a". -/
structure DisplayDT where
  month : Nat
  day : Nat
  year : Nat
  hour12 : Nat
  minute : Nat
  pm : Bool
deriving DecidableEq, Repr

/-- 24-hour value of a 12-hour-plus-meridiem display. -/
def hour24 (f : DisplayDT) : Nat :=
  if f.pm then (if f.hour12 = 12 then 12 else f.hour12 + 12)
  else (if f.hour12 = 12 then 0 else f.hour12)

/-- Display strings of the supported grammar (4-digit year, valid
calendar date, 12-hour clock). -/
def validDisplay (f : DisplayDT) : Prop :=
  1 ≤ f.month ∧ f.month ≤ 12 ∧ 1 ≤ f.day ∧ f.day ≤ monthLen f.year f.month ∧
    1 ≤ f.year ∧ f.year ≤ 9999 ∧ 1 ≤ f.hour12 ∧ f.hour12 ≤ 12 ∧ f.minute ≤ 59

instance (f : DisplayDT) : Decidable (validDisplay f) := by
  unfold validDisplay; infer_instance

/-- Rendering in the display format (luxon `toFormat("MMM dd yyyy hh:mm a")`). -/
def renderDisplay (f : DisplayDT) : List Char :=
  monthAbbrev f.month ++
    (' ' :: (pad2 f.day ++
      (' ' :: (pad4 f.year ++
        (' ' :: (pad2 f.hour12 ++
          (':' :: (pad2 f.minute ++
            (' ' :: (if f.pm then ['P', 'M'] else ['A', 'M']))))))))))

/-- Parsing of the display format (luxon
`fromFormat(s, "MMM dd yyyy hh:mm a")`), including luxon's validity check
(`isValid`): the fields must denote a real calendar date and a 12-hour
clock reading. -/
def parseDisplay (s : List Char) : Option DisplayDT :=
  (parseMonth s).bind fun (mo, r1) =>
  (expectChar ' ' r1).bind fun r2 =>
  (read2 r2).bind fun (d, r3) =>
  (expectChar ' ' r3).bind fun r4 =>
  (read4 r4).bind fun (yr, r5) =>
  (expectChar ' ' r5).bind fun r6 =>
  (read2 r6).bind fun (h12, r7) =>
  (expectChar ':' r7).bind fun r8 =>
  (read2 r8).bind fun (mi, r9) =>
  (expectChar ' ' r9).bind fun r10 =>
  (parseMeridiem r10).bind fun pm =>
  if 1 ≤ d ∧ d ≤ monthLen yr mo ∧ 1 ≤ h12 ∧ h12 ≤ 12 ∧ mi ≤ 59 then
    some ⟨mo, d, yr, h12, mi, pm⟩
  else none

theorem monthLen_le (y m : Nat) : monthLen y m ≤ 31 := by
  unfold monthLen
  split_ifs <;> omega

theorem parseDisplay_renderDisplay (f : DisplayDT) (h : validDisplay f) :
    parseDisplay (renderDisplay f) = some f := by
  obtain ⟨mo, d, yr, h12, mi, pm⟩ := f
  obtain ⟨hm1, hm2, hd1, hd2, hy1, hy2, hh1, hh2, hmi⟩ := h
  simp only at hm1 hm2 hd1 hd2 hy1 hy2 hh1 hh2 hmi
  have hd31 : d ≤ 31 := le_trans hd2 (monthLen_le yr mo)
  have hmer : parseMeridiem (if pm then ['P', 'M'] else ['A', 'M']) = some pm := by
    cases pm <;> rfl
  simp only [renderDisplay, parseDisplay,
    parseMonth_monthAbbrev mo hm1 hm2, Option.some_bind, expectChar_cons,
    read2_pad2 d (by omega), read2_pad2 h12 (by omega), read2_pad2 mi (by omega),
    read4_pad4 yr (by omega), hmer]
  rw [if_pos ⟨hd1, hd2, hh1, hh2, hmi⟩]

/-! ## The ISO-8601 grammar -/

/-- Offset suffix of luxon's `toISO()`: `Z` in the UTC zone, signed
`±HH:mm` otherwise. -/
def renderOffset (z : Zone) (off : Int) : List Char :=
  match z with
  | .utc => ['Z']
  | .newYork =>
    (if off < 0 then '-' else '+') ::
      (pad2 (off.natAbs / 60) ++ (':' :: pad2 (off.natAbs % 60)))

/-- luxon `toISO()`: the local wall-clock fields of the instant in the
DateTime's zone, at millisecond precision (the middleware's values always
carry `:00.000`), followed by the zone's offset suffix. -/
def renderISO (dt : LDT) : List Char :=
  let c := civilOfMinutes dt.localMin
  pad4 c.year ++
    ('-' :: (pad2 c.month ++
      ('-' :: (pad2 c.day ++
        ('T' :: (pad2 c.hour ++
          (':' :: (pad2 c.minute ++
            (':' :: ('0' :: '0' :: '.' :: '0' :: '0' :: '0' ::
              renderOffset dt.zone (offsetAt dt.zone dt.epochMin)))))))))))

/-- Optional seconds-and-fraction part `(:ss(.SSS)?)?` of an ISO time. -/
def parseSecFrac : List Char → Option (List Char)
  | ':' :: r =>
    (read2 r).bind fun (ss, r1) =>
    if ss ≤ 59 then
      match r1 with
      | '.' :: a :: b :: c :: r2 =>
        if a.isDigit && b.isDigit && c.isDigit then some r2 else none
      | _ => some r1
    else none
  | r => some r

/-- Optional offset suffix: absent, `Z`, or `±HH:mm`. -/
def parseOffset : List Char → Option (Option Int)
  | [] => some none
  | ['Z'] => some (some 0)
  | c :: r =>
    if c = '+' ∨ c = '-' then
      (read2 r).bind fun (oh, r1) =>
      (expectChar ':' r1).bind fun r2 =>
      (read2 r2).bind fun (om, r3) =>
      if r3 = [] then
        some (some (if c = '-' then -((oh : Int) * 60 + om) else (oh : Int) * 60 + om))
      else none
    else none

/-- Parse an ISO-8601 date-time `yyyy-MM-ddTHH:mm(:ss(.SSS)?)?(Z|±HH:mm)?`
into wall-clock fields and an optional offset, with luxon's validity check.
Seconds are parsed but not represented (minute granularity; the
middleware's own values always carry `:00`). -/
def parseISOCore (s : List Char) : Option (CivilDT × Option Int) :=
  (read4 s).bind fun (yr, r1) =>
  (expectChar '-' r1).bind fun r2 =>
  (read2 r2).bind fun (mo, r3) =>
  (expectChar '-' r3).bind fun r4 =>
  (read2 r4).bind fun (d, r5) =>
  (expectChar 'T' r5).bind fun r6 =>
  (read2 r6).bind fun (hh, r7) =>
  (expectChar ':' r7).bind fun r8 =>
  (read2 r8).bind fun (mi, r9) =>
  (parseSecFrac r9).bind fun r10 =>
  (parseOffset r10).bind fun off =>
  if 1 ≤ mo ∧ mo ≤ 12 ∧ 1 ≤ d ∧ d ≤ monthLen yr mo ∧ hh ≤ 23 ∧ mi ≤ 59 then
    some (⟨yr, mo, d, hh, mi⟩, off)
  else none

/-- luxon `DateTime.fromISO(s, opts)`: `zOpt` is the `zone` option
(`none` when absent), `sys` the process's default zone.  A string carrying
an offset fixes the instant, which is then expressed in the target zone;
a string without an offset is read as wall-clock time in the target zone
(luxon's two-pass offset fixup). -/
def fromISO (s : List Char) (zOpt : Option Zone) (sys : Zone) : Option LDT :=
  (parseISOCore s).bind fun (c, off) =>
  let zone := zOpt.getD sys
  match off with
  | some o => some ⟨minutesOfCivil c - o, zone⟩
  | none =>
    let w := minutesOfCivil c
    some ⟨w - offsetAt zone (w - offsetAt zone w), zone⟩

theorem parseOffset_renderOffset (z : Zone) (t : Int) :
    parseOffset (renderOffset z (offsetAt z t)) = some (some (offsetAt z t)) := by
  cases z
  · rfl
  · rcases offsetAt_newYork_cases t with h | h <;> rw [h] <;> rfl

/-- Parsing inverts rendering for ISO values whose local year has four
digits. -/
theorem parseISOCore_renderISO (dt : LDT)
    (h1 : 0 ≤ dt.localMin + 719468 * 1440)
    (h2 : (civilOfMinutes dt.localMin).year ≤ 9999) :
    parseISOCore (renderISO dt) =
      some (civilOfMinutes dt.localMin, some (offsetAt dt.zone dt.epochMin)) := by
  obtain ⟨-, hval, hh, hmi⟩ := minutesOfCivil_civilOfMinutes dt.localMin h1
  obtain ⟨hvc, -, -⟩ := hval
  obtain ⟨hm1, hm2, hd1, hd2, -⟩ := hvc
  have hfrac : parseSecFrac
      (':' :: '0' :: '0' :: '.' :: '0' :: '0' :: '0' ::
        renderOffset dt.zone (offsetAt dt.zone dt.epochMin)) =
      some (renderOffset dt.zone (offsetAt dt.zone dt.epochMin)) := by
    rfl
  have hd31 : (civilOfMinutes dt.localMin).day ≤ 31 :=
    le_trans hd2 (monthLen_le _ _)
  simp only [renderISO, parseISOCore,
    read4_pad4 _ (show (civilOfMinutes dt.localMin).year < 10000 by omega),
    Option.some_bind, expectChar_cons,
    read2_pad2 _ (show (civilOfMinutes dt.localMin).month < 100 by omega),
    read2_pad2 _ (show (civilOfMinutes dt.localMin).day < 100 by omega),
    read2_pad2 _ (show (civilOfMinutes dt.localMin).hour < 100 by omega),
    read2_pad2 _ (show (civilOfMinutes dt.localMin).minute < 100 by omega)]
  rw [hfrac]
  simp only [Option.some_bind, parseOffset_renderOffset]
  rw [if_pos ⟨hm1, hm2, hd1, hd2, hh, hmi⟩]

/-- `fromISO` of a rendered ISO value recovers the instant (in the target
zone). -/
theorem fromISO_renderISO (dt : LDT) (zOpt : Option Zone) (sys : Zone)
    (h1 : 0 ≤ dt.localMin + 719468 * 1440)
    (h2 : (civilOfMinutes dt.localMin).year ≤ 9999) :
    fromISO (renderISO dt) zOpt sys = some ⟨dt.epochMin, zOpt.getD sys⟩ := by
  obtain ⟨hrt, -, -, -⟩ := minutesOfCivil_civilOfMinutes dt.localMin h1
  simp only [fromISO, parseISOCore_renderISO dt h1 h2, Option.some_bind, hrt]
  simp only [LDT.localMin]
  rw [show dt.epochMin + offsetAt dt.zone dt.epochMin - offsetAt dt.zone dt.epochMin
      = dt.epochMin by omega]

/-! ## Display rendering of an instant -/

/-- 12-hour clock fields of a 24-hour value. -/
def displayOfCivil (c : CivilDT) : DisplayDT :=
  ⟨c.month, c.day, c.year, (if c.hour % 12 = 0 then 12 else c.hour % 12),
    c.minute, decide (12 ≤ c.hour)⟩

/-- luxon `toFormat("MMM dd yyyy hh:mm a")` of a DateTime. -/
def displayOfDT (dt : LDT) : List Char :=
  renderDisplay (displayOfCivil (civilOfMinutes dt.localMin))

theorem displayOfCivil_hour24 (f : DisplayDT) (hh1 : 1 ≤ f.hour12)
    (hh2 : f.hour12 ≤ 12) :
    displayOfCivil ⟨f.year, f.month, f.day, hour24 f, f.minute⟩ = f := by
  obtain ⟨mo, d, yr, h12, mi, pm⟩ := f
  simp only at hh1 hh2
  simp only [displayOfCivil, hour24, DisplayDT.mk.injEq]
  cases pm <;> by_cases h12eq : h12 = 12
  · subst h12eq; decide
  · have hlt : h12 < 12 := by omega
    simp [displayOfCivil, hour24, h12eq, Nat.mod_eq_of_lt hlt,
      show ¬h12 = 0 by omega, show ¬12 ≤ h12 by omega]
  · subst h12eq; decide
  · have hlt : h12 < 12 := by omega
    simp [displayOfCivil, hour24, h12eq, Nat.add_mod_right, Nat.mod_eq_of_lt hlt,
      show ¬h12 = 0 by omega, show 12 ≤ h12 + 12 by omega]

/-! ## The middleware's date conversions -/

/-- `convertAlchemyDate` (src/cal_middleware.js, lines 17-32), DateTime view:
`DateTime.fromFormat(s, "MMM dd yyyy hh:mm a", { zone: "UTC" })` reads the
fields as UTC wall-clock time; `setZone(timeZone, { keepLocalTime: false })`
keeps the instant and changes only the zone of expression. -/
def convertAlchemyDateDT (s : String) (tz : Zone) : Option LDT :=
  (parseDisplay s.data).map fun f =>
    ⟨minutesOfCivil ⟨f.year, f.month, f.day, hour24 f, f.minute⟩, tz⟩

/-- `convertAlchemyDate`: the `toISO()` string of the above, or `null` on a
parse failure. -/
def convertAlchemyDate (s : String) (tz : Zone) : Option String :=
  (convertAlchemyDateDT s tz).map fun dt => String.mk (renderISO dt)

/-- The handlers apply `convertAlchemyDate` to a possibly-absent field;
`fromFormat(undefined, ...)` throws and the catch returns `null`. -/
def convertAlchemyDateOpt (s : Option String) (tz : Zone) : Option String :=
  s.bind fun str => convertAlchemyDate str tz

/-- The `replace(/Z$/, "")` step of `convertToISO` (src/unnamed/part_000). -/
def stripZ (l : List Char) : List Char :=
  match l.reverse with
  | 'Z' :: r => r.reverse
  | _ => l

/-- The `replace(/([-+]\d{2}:\d{2})$/, "")` step of `convertToISO`. -/
def stripOff (l : List Char) : List Char :=
  match l.reverse with
  | m2 :: m1 :: ':' :: h2 :: h1 :: sgn :: r =>
    if (sgn = '+' ∨ sgn = '-') ∧ m2.isDigit ∧ m1.isDigit ∧ h2.isDigit ∧ h1.isDigit then
      r.reverse
    else l
  | _ => l

/-- `convertToISO` (src/unnamed/part_000, lines 105-122): strip a trailing
`Z` or offset, parse as `"MMM dd yyyy hh:mm a"` wall-clock **in the given
zone** (luxon's two-pass offset fixup resolves DST gaps), and format
`"yyyy-MM-dd'T'HH:mm:ss"` — the local fields with **no** offset suffix. -/
def convertToISO (s : String) (tz : Zone) : Option String :=
  (parseDisplay (stripOff (stripZ s.data))).map fun f =>
    let w := minutesOfCivil ⟨f.year, f.month, f.day, hour24 f, f.minute⟩
    let e := w - offsetAt tz (w - offsetAt tz w)
    let c := civilOfMinutes (e + offsetAt tz e)
    String.mk (pad4 c.year ++
      ('-' :: (pad2 c.month ++
        ('-' :: (pad2 c.day ++
          ('T' :: (pad2 c.hour ++
            (':' :: (pad2 c.minute ++ [':', '0', '0'])))))))))

/-- `convertToAlchemyFormat` (src/cal_middleware.js second variant, lines
246-258): `DateTime.fromISO(s, { zone: "UTC" })` then
`toFormat("yyyy-MM-dd'T'HH:mm:ss'Z'")`; `null` on failure (and on an absent
input field). -/
def convertToAlchemyFormat (s : Option String) : Option String :=
  s.bind fun str =>
    (fromISO str.data (some .utc) .utc).map fun dt =>
      let c := civilOfMinutes dt.localMin
      String.mk (pad4 c.year ++
        ('-' :: (pad2 c.month ++
          ('-' :: (pad2 c.day ++
            ('T' :: (pad2 c.hour ++
              (':' :: (pad2 c.minute ++ [':', '0', '0', 'Z'])))))))))

/-- `DateTime.fromISO(s, { zone }).toFormat("MMM dd yyyy hh:mm a")`
(the update path's display formatting): luxon's `toFormat` of an invalid
DateTime is the literal string `"Invalid DateTime"`. -/
def isoToDisplay (s : Option String) (zOpt : Option Zone) (sys : Zone) : String :=
  match s with
  | none => "Invalid DateTime"
  | some str =>
    match fromISO str.data zOpt sys with
    | none => "Invalid DateTime"
    | some dt => String.mk (displayOfDT dt)

/-! ## The create path's end-after-start correction

`if (formattedEndUse <= formattedStartUse)` compares the two conversion
results with JavaScript `<=`: two strings compare lexicographically by code
units; `null <= null` is `0 <= 0` (true); a `null` against a string
compares as `0` against `NaN` (false). -/

def jsStrLe : List Char → List Char → Bool
  | [], _ => true
  | _ :: _, [] => false
  | a :: as, b :: bs =>
    if a.toNat < b.toNat then true
    else if b.toNat < a.toNat then false
    else jsStrLe as bs

def jsLeOpt : Option String → Option String → Bool
  | none, none => true
  | none, some _ => false
  | some _, none => false
  | some a, some b => jsStrLe a.data b.data

/-- `DateTime.fromISO(s).plus({ hours: 1 }).toISO()` (no zone option, so the
process's default zone `sys` is used); `fromISO(null)` is invalid and its
`toISO()` is `null`. -/
def plusOneHourISO (sys : Zone) : Option String → Option String
  | none => none
  | some s =>
    match fromISO s.data none sys with
    | none => none
    | some dt => some (String.mk (renderISO ⟨dt.epochMin + 60, sys⟩))

/-- The end-after-start correction of `app.post("/create-event")`
(src/cal_middleware.js, lines 110-114). -/
def adjustEnd (sys : Zone) (fS fE : Option String) : Option String :=
  if jsLeOpt fE fS then plusOneHourISO sys fS else fE

/-! ## Record-id extraction -/

theorem dropWhile_length_le {α : Type} (p : α → Bool) (l : List α) :
    (l.dropWhile p).length ≤ l.length := by
  induction l with
  | nil => simp
  | cons a l ih =>
    rw [List.dropWhile_cons]
    split
    · simp only [List.length_cons]
      omega
    · simp

/-- JavaScript word characters (`\w` and the `\b` boundary class). -/
def isWordChar (c : Char) : Bool := c.isAlphanum || c = '_'

/-- All matches of `/\b\d+\b/g`: maximal decimal-digit runs whose
neighbouring characters (if any) are not word characters.  The boolean
argument records whether the previous character was a word character. -/
def standaloneRunsAux : Bool → List Char → List (List Char)
  | _, [] => []
  | prevWord, c :: cs =>
    if c.isDigit && !prevWord then
      let run := c :: cs.takeWhile Char.isDigit
      let rest := cs.dropWhile Char.isDigit
      match rest with
      | [] => [run]
      | r :: _ =>
        if isWordChar r then standaloneRunsAux true rest
        else run :: standaloneRunsAux false rest
    else standaloneRunsAux (isWordChar c) cs
termination_by _ l => l.length
decreasing_by
  all_goals simp only [List.length_cons]
  · have := dropWhile_length_le Char.isDigit cs
    omega
  · have := dropWhile_length_le Char.isDigit cs
    omega
  · omega

def standaloneRuns (s : String) : List (List Char) := standaloneRunsAux false s.data

/-- First match of the same scan: `description.match(/\b\d+\b/)` keeps only
the first match. -/
def firstRunAux : Bool → List Char → Option (List Char)
  | _, [] => none
  | prevWord, c :: cs =>
    if c.isDigit && !prevWord then
      let run := c :: cs.takeWhile Char.isDigit
      let rest := cs.dropWhile Char.isDigit
      match rest with
      | [] => some run
      | r :: _ =>
        if isWordChar r then firstRunAux true rest
        else some run
    else firstRunAux (isWordChar c) cs
termination_by _ l => l.length
decreasing_by
  all_goals simp only [List.length_cons]
  · have := dropWhile_length_le Char.isDigit cs
    omega
  · omega

/-- `req.body.description.match(/\b\d+\b/)` followed by `match[0]`
(src/cal_middleware.js line 172). -/
def recordIdMatch (s : String) : Option String :=
  (firstRunAux false s.data).map String.mk

/-- Modelled from the spec (section 4.3): the extraction policy the spec
prescribes — "prefer the last standalone numeric token in the text".  Kept
for comparison with the code's first-match behaviour. -/
def lastStandaloneNumber (s : String) : Option String :=
  (standaloneRuns s).getLast?.map String.mk

def natOfDigits (l : List Char) : Nat := l.foldl (fun a c => a * 10 + digitVal c) 0

/-- JavaScript `trim()`: strip whitespace from both ends. -/
def trimChars (l : List Char) : List Char :=
  ((l.dropWhile Char.isWhitespace).reverse.dropWhile Char.isWhitespace).reverse

/-- `extractRecordId` (src/unnamed/part_003, lines 90-93):
`description.trim().match(/^\d+$/)` then `parseInt` — the whole trimmed
text must be one digit run. -/
def extractRecordId (s : String) : Option Nat :=
  let t := trimChars s.data
  if t ≠ [] ∧ t.all Char.isDigit then some (natOfDigits t) else none

/-! ## Route handlers

Each express handler is modelled as a function from the request body plus
an environment of remote-call outcomes to an HTTP response and the list of
outbound network calls it issued, in order.  A handler that dereferences a
missing field outside its try-block is modelled as `HOut.crash` (the
JavaScript TypeError escapes as an unhandled rejection). -/

structure AlchemyValue where
  value : String
deriving DecidableEq, Repr

structure AlchemyRow where
  row : Nat
  values : List AlchemyValue
deriving DecidableEq, Repr

structure AlchemyField where
  identifier : String
  rows : List AlchemyRow
deriving DecidableEq, Repr

structure AlchemyPayload where
  recordId : String
  fields : List AlchemyField
deriving DecidableEq, Repr

structure EventBody where
  calendarId : Option String
  summary : String
  location : String
  description : String
  startDateTime : Option String
  startTimeZone : Zone
  endDateTime : Option String
  endTimeZone : Zone
  attendees : List String
deriving DecidableEq, Repr

inductive NetCall
  | googleTokenExchange
  | calendarCreate (body : EventBody)
  | alchemyRefresh
  | alchemyUpdate (payload : AlchemyPayload)
deriving DecidableEq, Repr

/-- Outcome of the calendar-API create call, as the environment decides. -/
inductive CalResp
  | ok
  | authRejected
  | otherError
deriving DecidableEq, Repr

structure HttpResp where
  status : Nat
  message : String
deriving DecidableEq, Repr

inductive HOut
  | resp (r : HttpResp)
  | crash
deriving DecidableEq, Repr

structure CreateReq where
  StartUse : Option String
  EndUse : Option String
  timeZone : Option Zone
  calendarId : Option String
  summary : Option String
  location : Option String
  description : Option String
  attendees : List String
deriving DecidableEq, Repr

structure CreateEnv where
  googleToken : Option String
  calendar : CalResp
deriving DecidableEq, Repr

/-- `app.post("/create-event")` of src/cal_middleware.js (lines 95-161):
no field validation; `convertAlchemyDate` for both instants; the string
`<=` end-correction; then the calendar create call with whatever values
resulted (null included).  `sys` is the server's default timezone. -/
def createEventMain (sys : Zone) (req : CreateReq) (env : CreateEnv) :
    HttpResp × List NetCall :=
  match env.googleToken with
  | none => (⟨500, "Failed to obtain access token"⟩, [.googleTokenExchange])
  | some _ =>
    let tz := req.timeZone.getD .newYork
    let fS := convertAlchemyDateOpt req.StartUse tz
    let fE := convertAlchemyDateOpt req.EndUse tz
    let fE' := if jsLeOpt fE fS then plusOneHourISO sys fS else fE
    let body : EventBody :=
      { calendarId := req.calendarId
        summary := req.summary.getD "Default Event Name"
        location := req.location.getD "No Location Provided"
        description := req.description.getD "No Description"
        startDateTime := fS
        startTimeZone := tz
        endDateTime := fE'
        endTimeZone := tz
        attendees := req.attendees }
    match env.calendar with
    | .ok => (⟨200, "success"⟩, [.googleTokenExchange, .calendarCreate body])
    | _ => (⟨500, "Failed to create event"⟩,
        [.googleTokenExchange, .calendarCreate body])

/-- `app.post("/create-event")` of src/unnamed/part_000 (lines 161-230):
`convertToISO` for both instants, HTTP 400 and no calendar call when either
conversion fails. -/
def createEventV2 (req : CreateReq) (env : CreateEnv) : HttpResp × List NetCall :=
  match env.googleToken with
  | none => (⟨500, "Failed to obtain access token"⟩, [.googleTokenExchange])
  | some _ =>
    let tz := req.timeZone.getD .newYork
    let fS := req.StartUse.bind fun s => convertToISO s tz
    let fE := req.EndUse.bind fun s => convertToISO s tz
    match fS, fE with
    | some s, some e =>
      let body : EventBody :=
        { calendarId := req.calendarId
          summary := req.summary.getD "Default Event Name"
          location := req.location.getD "No Location Provided"
          description := req.description.getD "No Description"
          startDateTime := some s
          startTimeZone := tz
          endDateTime := some e
          endTimeZone := tz
          attendees := req.attendees }
      (match env.calendar with
       | .ok => (⟨200, "success"⟩, [.googleTokenExchange, .calendarCreate body])
       | _ => (⟨500, "Failed to create event"⟩,
           [.googleTokenExchange, .calendarCreate body]))
    | _, _ =>
      (⟨400, "Invalid date format for StartUse or EndUse"⟩, [.googleTokenExchange])

structure EventTimeField where
  dateTime : Option String
  timeZone : Option Zone
deriving DecidableEq, Repr

structure UpdateReq where
  id : Option String
  start : Option EventTimeField
  end_ : Option EventTimeField
  description : Option String
deriving DecidableEq, Repr

structure UpdateEnv where
  alchemyToken : Option String
  updateOk : Bool
deriving DecidableEq, Repr

/-- The registry update payload built by both update handlers. -/
def mkAlchemyPayload (rid fS fE : String) : AlchemyPayload :=
  { recordId := rid
    fields := [⟨"StartUse", [⟨0, [⟨fS⟩]⟩]⟩, ⟨"EndUse", [⟨0, [⟨fE⟩]⟩]⟩] }

/-- `app.post("/update-alchemy")` of src/cal_middleware.js (lines 164-223):
validates only id, start, end; dereferences `description` outside the
try-block (crash when absent); first regex match for the record id; then
token refresh and the update call. -/
def updateAlchemyPost (sys : Zone) (req : UpdateReq) (env : UpdateEnv) :
    HOut × List NetCall :=
  match req.id, req.start, req.end_ with
  | some _, some st, some en =>
    (match req.description with
     | none => (.crash, [])
     | some desc =>
       match recordIdMatch desc with
       | none => (.resp ⟨400, "Record ID not found in event description"⟩, [])
       | some rid =>
         let formattedStart := isoToDisplay st.dateTime st.timeZone sys
         let formattedEnd := isoToDisplay en.dateTime en.timeZone sys
         let payload := mkAlchemyPayload rid formattedStart formattedEnd
         match env.alchemyToken with
         | none => (.resp ⟨500, "Failed to refresh Alchemy token"⟩, [.alchemyRefresh])
         | some _ =>
           if env.updateOk then
             (.resp ⟨200, "Alchemy record updated"⟩,
               [.alchemyRefresh, .alchemyUpdate payload])
           else
             (.resp ⟨500, "Failed to update Alchemy"⟩,
               [.alchemyRefresh, .alchemyUpdate payload]))
  | _, _, _ => (.resp ⟨400, "Invalid request data"⟩, [])

/-! ## Registry credential refresh with tenant selection -/

def TENANT_NAME : String := "productcaseelnlims4uat"

structure TokenEntry where
  tenant : String
  accessToken : String
deriving DecidableEq, Repr

inductive CredentialFailure
  | refreshFailed
  | tenantNotFound (tenant : String)
deriving DecidableEq, Repr

/-- `refreshAlchemyToken` (src/cal_middleware.js, lines 266-293) with its
failure cases explicit: a non-2xx refresh response, or no entry for the
configured tenant in `data.tokens` (the code throws
`Tenant '...' not found in response.` for the latter).  `resp` is `none`
for a non-2xx response, else the token list of the body. -/
def refreshAlchemyTokenE (resp : Option (List TokenEntry)) :
    Except CredentialFailure String :=
  match resp with
  | none => .error .refreshFailed
  | some tokens =>
    match tokens.find? (fun tok => tok.tenant = TENANT_NAME) with
    | none => .error (.tenantNotFound TENANT_NAME)
    | some entry => .ok entry.accessToken

/-- The catch-block turns either failure into `null`. -/
def refreshAlchemyToken (resp : Option (List TokenEntry)) : Option String :=
  (refreshAlchemyTokenE resp).toOption

structure UpdatePutEnv where
  refreshResp : Option (List TokenEntry)
  updateOk : Bool
deriving DecidableEq, Repr

/-- `app.put("/update-alchemy")` of src/cal_middleware.js (second variant,
lines 296-362): same validation and record-id extraction, then
`convertToAlchemyFormat` with a 400 on failure, then the tenant-selecting
refresh (500 and no update call when it yields null), then the update. -/
def updateAlchemyPut (req : UpdateReq) (env : UpdatePutEnv) : HOut × List NetCall :=
  match req.id, req.start, req.end_ with
  | some _, some st, some en =>
    (match req.description with
     | none => (.crash, [])
     | some desc =>
       match recordIdMatch desc with
       | none => (.resp ⟨400, "Record ID not found in event description"⟩, [])
       | some rid =>
         match convertToAlchemyFormat st.dateTime, convertToAlchemyFormat en.dateTime with
         | some fS, some fE =>
           (match refreshAlchemyToken env.refreshResp with
            | none =>
              (.resp ⟨500, "Failed to refresh Alchemy token"⟩, [.alchemyRefresh])
            | some _ =>
              let payload := mkAlchemyPayload rid fS fE
              if env.updateOk then
                (.resp ⟨200, "Alchemy record updated"⟩,
                  [.alchemyRefresh, .alchemyUpdate payload])
              else
                (.resp ⟨500, "Failed to update Alchemy"⟩,
                  [.alchemyRefresh, .alchemyUpdate payload]))
         | _, _ => (.resp ⟨400, "Invalid date format received"⟩, []))
  | _, _, _ => (.resp ⟨400, "Invalid request data"⟩, [])

/-! ## Supporting lemmas for the claims -/

theorem hour24_le (f : DisplayDT) (h1 : 1 ≤ f.hour12) (h2 : f.hour12 ≤ 12) :
    hour24 f ≤ 23 := by
  unfold hour24
  split_ifs <;> omega

theorem validDisplay_validCivilDT (f : DisplayDT) (h : validDisplay f) :
    validCivilDT ⟨f.year, f.month, f.day, hour24 f, f.minute⟩ := by
  obtain ⟨hm1, hm2, hd1, hd2, hy1, hy2, hh1, hh2, hmi⟩ := h
  exact ⟨⟨hm1, hm2, hd1, hd2, fun _ => hy1⟩, hour24_le f hh1 hh2, hmi⟩

theorem data_mk (l : List Char) : (String.mk l).data = l := rfl

/-- `convertAlchemyDateDT` on a rendered display string: the display fields
are read as UTC wall-clock time (the resulting instant is their UTC
interpretation), and only the zone of expression is `tz`. -/
theorem convertAlchemyDateDT_render (f : DisplayDT) (tz : Zone) (h : validDisplay f) :
    convertAlchemyDateDT (String.mk (renderDisplay f)) tz =
      some ⟨minutesOfCivil ⟨f.year, f.month, f.day, hour24 f, f.minute⟩, tz⟩ := by
  simp only [convertAlchemyDateDT, data_mk, parseDisplay_renderDisplay f h,
    Option.map_some']

/-! ## Claim C1 -/

/-- C1, counterexample: on "Mar 05 2025 02:30 PM" with zone
America/New_York, `convertAlchemyDate` produces an instant whose hour
viewed in that zone is 9, not the displayed 14 (2 PM): the string is parsed
as UTC and then shifted, exactly what the claim denies; and `convertToISO`
emits no offset annotation at all. -/
theorem c1_counterexample :
    convertAlchemyDate "Mar 05 2025 02:30 PM" Zone.newYork
        = some "2025-03-05T09:30:00.000-05:00" ∧
    ((convertAlchemyDateDT "Mar 05 2025 02:30 PM" Zone.newYork).map
        (fun dt => (civilOfMinutes dt.localMin).hour)) = some 9 ∧
    (9 : Nat) ≠ 14 ∧
    convertToISO "Mar 05 2025 02:30 PM" Zone.newYork = some "2025-03-05T14:30:00" := by
  refine ⟨by decide, by decide, by decide, by decide⟩

/-- C1, amended: for every display string of the grammar and every modelled
zone, `convertAlchemyDate` interprets the string as **UTC** wall-clock time
(the instant is the UTC reading of the displayed fields — not wall-clock
time in the given zone) and then merely re-expresses that instant in the
zone, annotating it with the zone's UTC offset at that instant via
`renderISO`. -/
theorem c1_utc_anchored (f : DisplayDT) (tz : Zone) (h : validDisplay f) :
    convertAlchemyDateDT (String.mk (renderDisplay f)) tz =
      some ⟨minutesOfCivil ⟨f.year, f.month, f.day, hour24 f, f.minute⟩, tz⟩ ∧
    convertAlchemyDate (String.mk (renderDisplay f)) tz =
      some (String.mk (renderISO
        ⟨minutesOfCivil ⟨f.year, f.month, f.day, hour24 f, f.minute⟩, tz⟩)) := by
  have hdt := convertAlchemyDateDT_render f tz h
  exact ⟨hdt, by simp only [convertAlchemyDate, hdt, Option.map_some']⟩

/-- C1, witness: the amended theorem applied at "Mar 05 2025 02:30 PM" and
America/New_York. -/
theorem c1_witness :
    validDisplay ⟨3, 5, 2025, 2, 30, true⟩ ∧
    convertAlchemyDate (String.mk (renderDisplay ⟨3, 5, 2025, 2, 30, true⟩))
        Zone.newYork =
      some (String.mk (renderISO
        ⟨minutesOfCivil ⟨2025, 3, 5, hour24 ⟨3, 5, 2025, 2, 30, true⟩, 30⟩,
          Zone.newYork⟩)) :=
  ⟨by decide, (c1_utc_anchored ⟨3, 5, 2025, 2, 30, true⟩ Zone.newYork (by decide)).2⟩

/-! ## Claim C4 -/

/-- C4, counterexample: the round trip on "Mar 05 2025 02:30 PM" in
America/New_York returns "Mar 05 2025 09:30 AM", not the original string:
the UTC-anchored parse shifts the wall clock by the zone offset. -/
theorem c4_counterexample :
    isoToDisplay (convertAlchemyDate "Mar 05 2025 02:30 PM" Zone.newYork)
        (some Zone.newYork) Zone.utc = "Mar 05 2025 09:30 AM" ∧
    ("Mar 05 2025 09:30 AM" : String) ≠ "Mar 05 2025 02:30 PM" := by
  refine ⟨by decide, by decide⟩

/-- C4, amended: the display-to-ISO-to-display round trip preserves the
instant but shifts the wall clock by the zone's UTC offset, so it is the
identity exactly when that offset is zero: for the UTC zone,
`toDisplayFormat (toCalendarFormat s UTC) UTC = s` for every display string
of the grammar (with any server default zone `sys`). -/
theorem c4_roundtrip_utc (f : DisplayDT) (sys : Zone) (h : validDisplay f) :
    isoToDisplay (convertAlchemyDate (String.mk (renderDisplay f)) Zone.utc)
        (some Zone.utc) sys = String.mk (renderDisplay f) := by
  obtain ⟨hm1, hm2, hd1, hd2, hy1, hy2, hh1, hh2, hmi⟩ := h
  have hvd : validCivilDT ⟨f.year, f.month, f.day, hour24 f, f.minute⟩ :=
    validDisplay_validCivilDT f ⟨hm1, hm2, hd1, hd2, hy1, hy2, hh1, hh2, hmi⟩
  have hconv := convertAlchemyDateDT_render f Zone.utc
    ⟨hm1, hm2, hd1, hd2, hy1, hy2, hh1, hh2, hmi⟩
  have hca : convertAlchemyDate (String.mk (renderDisplay f)) Zone.utc
      = some (String.mk (renderISO
          ⟨minutesOfCivil ⟨f.year, f.month, f.day, hour24 f, f.minute⟩, Zone.utc⟩)) := by
    simp only [convertAlchemyDate, hconv, Option.map_some']
  have hloc : LDT.localMin
      ⟨minutesOfCivil ⟨f.year, f.month, f.day, hour24 f, f.minute⟩, Zone.utc⟩ =
      minutesOfCivil ⟨f.year, f.month, f.day, hour24 f, f.minute⟩ := by
    simp [LDT.localMin, offsetAt]
  have hcm : civilOfMinutes
      (minutesOfCivil ⟨f.year, f.month, f.day, hour24 f, f.minute⟩) =
      ⟨f.year, f.month, f.day, hour24 f, f.minute⟩ :=
    civilOfMinutes_minutesOfCivil _ hvd
  have hfi : fromISO (String.mk (renderISO
      ⟨minutesOfCivil ⟨f.year, f.month, f.day, hour24 f, f.minute⟩, Zone.utc⟩)).data
      (some Zone.utc) sys =
      some ⟨minutesOfCivil ⟨f.year, f.month, f.day, hour24 f, f.minute⟩, Zone.utc⟩ := by
    rw [data_mk]
    have hfr := fromISO_renderISO
      ⟨minutesOfCivil ⟨f.year, f.month, f.day, hour24 f, f.minute⟩, Zone.utc⟩
      (some Zone.utc) sys ?_ ?_
    · simpa using hfr
    · rw [hloc]
      simp only [minutesOfCivil]
      omega
    · rw [hloc, hcm]
      exact hy2
  rw [hca]
  simp only [isoToDisplay, hfi, displayOfDT, hloc, hcm]
  rw [displayOfCivil_hour24 f hh1 hh2]

/-- C4, witness: the UTC round trip applied at "Mar 05 2025 02:30 PM". -/
theorem c4_witness :
    validDisplay ⟨3, 5, 2025, 2, 30, true⟩ ∧
    isoToDisplay (convertAlchemyDate
        (String.mk (renderDisplay ⟨3, 5, 2025, 2, 30, true⟩)) Zone.utc)
        (some Zone.utc) Zone.utc =
      String.mk (renderDisplay ⟨3, 5, 2025, 2, 30, true⟩) :=
  ⟨by decide, c4_roundtrip_utc ⟨3, 5, 2025, 2, 30, true⟩ Zone.utc (by decide)⟩

/-! ## Claim C2 -/

theorem firstRunAux_eq_head (n : Nat) : ∀ (prev : Bool) (l : List Char),
    l.length ≤ n → firstRunAux prev l = (standaloneRunsAux prev l).head? := by
  induction n with
  | zero =>
    intro prev l h
    cases l with
    | nil => simp [firstRunAux, standaloneRunsAux]
    | cons c cs => simp at h
  | succ n ih =>
    intro prev l h
    cases l with
    | nil => simp [firstRunAux, standaloneRunsAux]
    | cons c cs =>
      rw [firstRunAux, standaloneRunsAux]
      by_cases hc : c.isDigit && !prev
      · rw [if_pos hc, if_pos hc]
        rcases hrest : cs.dropWhile Char.isDigit with - | ⟨r, rs⟩
        · simp only [hrest]
          rfl
        · simp only [hrest]
          by_cases hw : isWordChar r
          · rw [if_pos hw, if_pos hw]
            have hlen : (r :: rs).length ≤ n := by
              have := dropWhile_length_le Char.isDigit cs
              rw [hrest] at this
              simp only [List.length_cons] at h this ⊢
              omega
            exact ih true (r :: rs) hlen
          · rw [if_neg hw, if_neg hw]
            simp
      · rw [if_neg hc, if_neg hc]
        exact ih (isWordChar c) cs (by simp only [List.length_cons] at h; omega)

/-- The first regex match is the head of the list of all standalone runs. -/
theorem recordIdMatch_eq_head (s : String) :
    recordIdMatch s = ((standaloneRuns s).head?).map String.mk := by
  unfold recordIdMatch standaloneRuns
  rw [firstRunAux_eq_head s.data.length false s.data (le_refl _)]

/-- C2, counterexample: the code keeps the **first** standalone number, not
the last ("7 then 42" yields 7); digits reached across a non-word character
such as "-" do match ("A-7" yields 7, which the claim excludes); and the
`extractRecordId` variant returns NotFound on the spec's own example
"Reservation for item 42" because it requires the whole trimmed description
to be digits. -/
theorem c2_counterexample :
    recordIdMatch "7 then 42" = some "7" ∧
    lastStandaloneNumber "7 then 42" = some "42" ∧
    some "7" ≠ some "42" ∧
    recordIdMatch "A-7" = some "7" ∧
    extractRecordId "Reservation for item 42" = none := by
  refine ⟨by simp +decide [recordIdMatch, firstRunAux],
    by simp +decide [lastStandaloneNumber, standaloneRuns, standaloneRunsAux],
    by decide,
    by simp +decide [recordIdMatch, firstRunAux],
    by decide⟩

/-- C2, amended: `recordIdMatch` returns the **first** standalone maximal
run of decimal digits of the description — a maximal digit run whose
neighbouring characters are not word characters (letters, digits,
underscore; so the 7 of "A-7" does qualify, "-" being a non-word
character) — formally the head of the list of all standalone runs; it
returns none exactly when no standalone numeric token exists.  The
`extractRecordId` variant (src/unnamed/part_003) instead accepts only a
description whose whole trimmed text is one digit run. -/
theorem c2_first_standalone (s : String) :
    recordIdMatch s = ((standaloneRuns s).head?).map String.mk ∧
    (recordIdMatch s = none ↔ standaloneRuns s = []) := by
  refine ⟨recordIdMatch_eq_head s, ?_⟩
  rw [recordIdMatch_eq_head s]
  rcases standaloneRuns s with - | ⟨a, l⟩ <;> simp

/-! ## Claim C3 -/

/-- C3, counterexample: across the 2025 fall-back DST transition the
lexicographic string comparison disagrees with instant order.  For the
display inputs "Nov 02 2025 06:30 AM" (start) and "Nov 02 2025 05:45 AM"
(end) in America/New_York, the computed end instant (29367705 min) is
45 minutes **before** the start instant (29367750 min) — so the claim
requires the end to be replaced by start + 1 hour — yet the rendered end
string "…01:45:00.000-04:00" compares lexicographically greater than the
start string "…01:30:00.000-05:00", so the code's correction does not fire
and the end is left unchanged. -/
theorem c3_counterexample :
    (convertAlchemyDateDT "Nov 02 2025 05:45 AM" Zone.newYork).map LDT.epochMin
        = some 29367705 ∧
    (convertAlchemyDateDT "Nov 02 2025 06:30 AM" Zone.newYork).map LDT.epochMin
        = some 29367750 ∧
    (29367705 : Int) < 29367750 ∧
    adjustEnd Zone.utc
        (convertAlchemyDate "Nov 02 2025 06:30 AM" Zone.newYork)
        (convertAlchemyDate "Nov 02 2025 05:45 AM" Zone.newYork)
      = convertAlchemyDate "Nov 02 2025 05:45 AM" Zone.newYork ∧
    convertAlchemyDate "Nov 02 2025 05:45 AM" Zone.newYork
      ≠ plusOneHourISO Zone.utc
          (convertAlchemyDate "Nov 02 2025 06:30 AM" Zone.newYork) := by
  refine ⟨by decide, by decide, by decide, by decide, by decide⟩

/-- C3, amended: the end-after-start check compares the two rendered ISO
strings lexicographically (JavaScript string `<=`), which coincides with
instant order only while both strings carry the same UTC offset.  When the
comparison holds, the end is replaced by exactly the start instant plus 60
minutes (rendered in the server's default zone), deterministically and
totally — the replacement string denotes precisely the instant
`start + 60`, which is strictly after the start; when it does not hold the
end is left unchanged; on two null operands the correction branch is taken
and yields null without failing. -/
theorem c3_string_compare_correction (sys : Zone) (s e : String) (tS : Int)
    (hS : fromISO s.data none sys = some ⟨tS, sys⟩)
    (hb1 : 0 ≤ LDT.localMin ⟨tS + 60, sys⟩ + 719468 * 1440)
    (hb2 : (civilOfMinutes (LDT.localMin ⟨tS + 60, sys⟩)).year ≤ 9999) :
    (jsStrLe e.data s.data = true →
      adjustEnd sys (some s) (some e) =
        some (String.mk (renderISO ⟨tS + 60, sys⟩))) ∧
    (jsStrLe e.data s.data = false →
      adjustEnd sys (some s) (some e) = some e) ∧
    fromISO (String.mk (renderISO ⟨tS + 60, sys⟩)).data none sys =
      some ⟨tS + 60, sys⟩ ∧
    tS < tS + 60 ∧
    adjustEnd sys none none = none := by
  refine ⟨?_, ?_, ?_, by omega, rfl⟩
  · intro hle
    simp only [adjustEnd, jsLeOpt, hle, if_true, plusOneHourISO, hS]
  · intro hle
    simp only [adjustEnd, jsLeOpt, hle, Bool.false_eq_true, if_false]
  · rw [data_mk]
    simpa using fromISO_renderISO ⟨tS + 60, sys⟩ none sys hb1 hb2

/-- C3, witness: the amended theorem applied to the converted start
"Mar 05 2025 02:30 PM" (instant 29019750) and an end string an hour and a
half earlier, with the server default zone UTC. -/
theorem c3_witness :
    fromISO ("2025-03-05T09:30:00.000-05:00" : String).data none Zone.utc
        = some ⟨29019750, Zone.utc⟩ ∧
    ((jsStrLe ("2025-03-05T08:00:00.000-05:00" : String).data
        ("2025-03-05T09:30:00.000-05:00" : String).data = true →
      adjustEnd Zone.utc (some "2025-03-05T09:30:00.000-05:00")
          (some "2025-03-05T08:00:00.000-05:00") =
        some (String.mk (renderISO ⟨29019750 + 60, Zone.utc⟩))) ∧
    (jsStrLe ("2025-03-05T08:00:00.000-05:00" : String).data
        ("2025-03-05T09:30:00.000-05:00" : String).data = false →
      adjustEnd Zone.utc (some "2025-03-05T09:30:00.000-05:00")
          (some "2025-03-05T08:00:00.000-05:00") =
        some "2025-03-05T08:00:00.000-05:00") ∧
    fromISO (String.mk (renderISO ⟨29019750 + 60, Zone.utc⟩)).data none Zone.utc =
      some ⟨29019750 + 60, Zone.utc⟩ ∧
    (29019750 : Int) < 29019750 + 60 ∧
    adjustEnd Zone.utc none none = none) :=
  ⟨by decide,
    c3_string_compare_correction Zone.utc "2025-03-05T09:30:00.000-05:00"
      "2025-03-05T08:00:00.000-05:00" 29019750 (by decide) (by decide) (by decide)⟩

/-! ## Claim C5 -/

def isTokCall : NetCall → Bool
  | .googleTokenExchange => true
  | _ => false

def isCalCall : NetCall → Bool
  | .calendarCreate _ => true
  | _ => false

/-- C5, counterexample: there is no token cache.  Two sequential successful
create calls perform two token-exchange network calls (the claim allows
one); and after an authentication rejection of the calendar call the
handler answers 500 with exactly one token exchange and one calendar call
in its trace — no refresh, no retry (the claim requires exactly one
refresh-and-retry, i.e. a second exchange). -/
theorem c5_counterexample :
    ((createEventMain Zone.utc
        ⟨some "Mar 05 2025 02:30 PM", some "Mar 05 2025 03:30 PM",
          some Zone.newYork, some "cal", none, none, none, []⟩
        ⟨some "tok", CalResp.ok⟩).2 ++
      (createEventMain Zone.utc
        ⟨some "Mar 05 2025 02:30 PM", some "Mar 05 2025 03:30 PM",
          some Zone.newYork, some "cal", none, none, none, []⟩
        ⟨some "tok", CalResp.ok⟩).2).countP isTokCall = 2 ∧
    (1 : Nat) < 2 ∧
    (createEventMain Zone.utc
        ⟨some "Mar 05 2025 02:30 PM", some "Mar 05 2025 03:30 PM",
          some Zone.newYork, some "cal", none, none, none, []⟩
        ⟨some "tok", CalResp.authRejected⟩).1.status = 500 ∧
    (createEventMain Zone.utc
        ⟨some "Mar 05 2025 02:30 PM", some "Mar 05 2025 03:30 PM",
          some Zone.newYork, some "cal", none, none, none, []⟩
        ⟨some "tok", CalResp.authRejected⟩).2.countP isTokCall = 1 ∧
    (createEventMain Zone.utc
        ⟨some "Mar 05 2025 02:30 PM", some "Mar 05 2025 03:30 PM",
          some Zone.newYork, some "cal", none, none, none, []⟩
        ⟨some "tok", CalResp.authRejected⟩).2.countP isCalCall = 1 := by
  refine ⟨by decide, by decide, by decide, by decide, by decide⟩

/-- C5, amended: the credential path performs exactly one token exchange on
**every** invocation of the create handler (no caching, so sequential calls
each pay one exchange), and an authentication rejection of the calendar
call is surfaced as HTTP 500 with no refresh and no retry: the trace still
holds exactly one token exchange and one calendar call. -/
theorem c5_no_cache_no_retry (sys : Zone) (req : CreateReq) (env : CreateEnv) :
    (createEventMain sys req env).2.countP isTokCall = 1 ∧
    (env.calendar = CalResp.authRejected → env.googleToken ≠ none →
      (createEventMain sys req env).1.status = 500 ∧
      (createEventMain sys req env).2.countP isTokCall = 1 ∧
      (createEventMain sys req env).2.countP isCalCall = 1) := by
  obtain ⟨tok, cal⟩ := env
  cases tok <;> cases cal <;>
    simp [createEventMain, isTokCall, isCalCall, List.countP_cons]

/-- C5, witness: the amended theorem at a concrete request with an
auth-rejecting environment. -/
theorem c5_witness :
    (⟨some "tok", CalResp.authRejected⟩ : CreateEnv).calendar
        = CalResp.authRejected ∧
    (⟨some "tok", CalResp.authRejected⟩ : CreateEnv).googleToken ≠ none ∧
    (createEventMain Zone.utc
        ⟨some "Mar 05 2025 02:30 PM", some "Mar 05 2025 03:30 PM",
          some Zone.newYork, some "cal", none, none, none, []⟩
        ⟨some "tok", CalResp.authRejected⟩).2.countP isTokCall = 1 ∧
    (createEventMain Zone.utc
        ⟨some "Mar 05 2025 02:30 PM", some "Mar 05 2025 03:30 PM",
          some Zone.newYork, some "cal", none, none, none, []⟩
        ⟨some "tok", CalResp.authRejected⟩).1.status = 500 :=
  ⟨rfl, by decide,
    (c5_no_cache_no_retry Zone.utc
      ⟨some "Mar 05 2025 02:30 PM", some "Mar 05 2025 03:30 PM",
        some Zone.newYork, some "cal", none, none, none, []⟩
      ⟨some "tok", CalResp.authRejected⟩).1,
    ((c5_no_cache_no_retry Zone.utc
      ⟨some "Mar 05 2025 02:30 PM", some "Mar 05 2025 03:30 PM",
        some Zone.newYork, some "cal", none, none, none, []⟩
      ⟨some "tok", CalResp.authRejected⟩).2 rfl (by decide)).1⟩

/-! ## Claim C6 -/

/-- C6: `refreshAlchemyToken` selects from the refresh response exactly the
token whose tenant equals the configured `TENANT_NAME`; when no entry for
that tenant is present it fails with the distinct tenant-not-found
credential error, and the PUT update handler then answers HTTP 500 ("Failed
to refresh Alchemy token") without ever issuing a registry update call. -/
theorem c6_tenant_selection :
    (∀ (toks : List TokenEntry) (entry : TokenEntry),
      toks.find? (fun tok => tok.tenant = TENANT_NAME) = some entry →
      refreshAlchemyTokenE (some toks) = .ok entry.accessToken) ∧
    (∀ (toks : List TokenEntry) (req : UpdateReq) (env : UpdatePutEnv),
      env.refreshResp = some toks →
      (∀ e ∈ toks, e.tenant ≠ TENANT_NAME) →
      refreshAlchemyTokenE (some toks) = .error (.tenantNotFound TENANT_NAME) ∧
      (∀ p, NetCall.alchemyUpdate p ∉ (updateAlchemyPut req env).2) ∧
      (NetCall.alchemyRefresh ∈ (updateAlchemyPut req env).2 →
        (updateAlchemyPut req env).1 =
          .resp ⟨500, "Failed to refresh Alchemy token"⟩)) := by
  constructor
  · intro toks entry hfind
    simp only [refreshAlchemyTokenE, hfind]
  · intro toks req env hresp hmiss
    have hfind : toks.find? (fun tok => tok.tenant = TENANT_NAME) = none := by
      rw [List.find?_eq_none]
      intro e he
      simp only [decide_eq_true_eq]
      exact hmiss e he
    have herr : refreshAlchemyTokenE (some toks) =
        .error (.tenantNotFound TENANT_NAME) := by
      simp only [refreshAlchemyTokenE, hfind]
    have hnull : refreshAlchemyToken env.refreshResp = none := by
      rw [hresp]
      simp only [refreshAlchemyToken, herr, Except.toOption]
    obtain ⟨id, st, en, desc⟩ := req
    have key : (updateAlchemyPut ⟨id, st, en, desc⟩ env).2 = [] ∨
        ((updateAlchemyPut ⟨id, st, en, desc⟩ env).2 = [NetCall.alchemyRefresh] ∧
          (updateAlchemyPut ⟨id, st, en, desc⟩ env).1 =
            .resp ⟨500, "Failed to refresh Alchemy token"⟩) := by
      cases id with
      | none => exact Or.inl rfl
      | some i =>
        cases st with
        | none => exact Or.inl rfl
        | some sv =>
          cases en with
          | none => exact Or.inl rfl
          | some ev =>
            cases desc with
            | none => exact Or.inl rfl
            | some d =>
              cases hr : recordIdMatch d with
              | none => simp [updateAlchemyPut, hr]
              | some rid =>
                cases hcs : convertToAlchemyFormat sv.dateTime with
                | none => simp [updateAlchemyPut, hr, hcs]
                | some fs =>
                  cases hce : convertToAlchemyFormat ev.dateTime with
                  | none => simp [updateAlchemyPut, hr, hcs, hce]
                  | some fe =>
                    right
                    constructor <;> simp [updateAlchemyPut, hr, hcs, hce, hnull]
    rcases key with h | ⟨h1, h2⟩
    · rw [h]
      exact ⟨herr, fun p => List.not_mem_nil _, fun hmem => absurd hmem (List.not_mem_nil _)⟩
    · rw [h1, h2]
      refine ⟨herr, ?_, fun _ => rfl⟩
      intro p
      simp

/-- C6, witness: the tenant-mismatch branch at a concrete refresh response
listing only a foreign tenant, with a fully-populated update request. -/
theorem c6_witness :
    (⟨some [⟨"otherTenant", "tok123"⟩], true⟩ : UpdatePutEnv).refreshResp
        = some [⟨"otherTenant", "tok123"⟩] ∧
    (∀ e ∈ [(⟨"otherTenant", "tok123"⟩ : TokenEntry)], e.tenant ≠ TENANT_NAME) ∧
    refreshAlchemyTokenE (some [⟨"otherTenant", "tok123"⟩])
        = .error (.tenantNotFound TENANT_NAME) ∧
    (∀ p, NetCall.alchemyUpdate p ∉
      (updateAlchemyPut
        ⟨some "evt1",
          some ⟨some "2025-03-05T14:30:00-05:00", some Zone.newYork⟩,
          some ⟨some "2025-03-05T15:30:00-05:00", some Zone.newYork⟩,
          some "Room booking 1001"⟩
        ⟨some [⟨"otherTenant", "tok123"⟩], true⟩).2) := by
  have h := (c6_tenant_selection.2 [⟨"otherTenant", "tok123"⟩]
    ⟨some "evt1",
      some ⟨some "2025-03-05T14:30:00-05:00", some Zone.newYork⟩,
      some ⟨some "2025-03-05T15:30:00-05:00", some Zone.newYork⟩,
      some "Room booking 1001"⟩
    ⟨some [⟨"otherTenant", "tok123"⟩], true⟩ rfl (by decide))
  exact ⟨rfl, by decide, h.1, h.2.1⟩

/-! ## Claim C7 -/

/-- C7: the POST update handler validates only id, start and end — a
missing description is **not** rejected with HTTP 400 but crashes the
handler (the unchecked `req.body.description.match(...)` on line 172 throws
a TypeError outside the try-block), while a missing id is answered 400 as
the claim expects for all four fields. -/
theorem c7_missing_description_crash :
    updateAlchemyPost Zone.utc
        ⟨some "evt1",
          some ⟨some "2025-03-05T14:30:00-05:00", some Zone.newYork⟩,
          some ⟨some "2025-03-05T15:30:00-05:00", some Zone.newYork⟩,
          none⟩
        ⟨some "tok", true⟩ = (.crash, []) ∧
    updateAlchemyPost Zone.utc
        ⟨none,
          some ⟨some "2025-03-05T14:30:00-05:00", some Zone.newYork⟩,
          some ⟨some "2025-03-05T15:30:00-05:00", some Zone.newYork⟩,
          some "Room booking 1001"⟩
        ⟨some "tok", true⟩ = (.resp ⟨400, "Invalid request data"⟩, []) := by
  exact ⟨rfl, rfl⟩

/-! ## Claim C8 -/

/-- C8, counterexample: the primary create handler performs no field
validation at all: with an unparseable StartUse it answers 200, not 400,
and still issues the calendar create call — with a null start dateTime. -/
theorem c8_counterexample :
    createEventMain Zone.utc
        ⟨some "garbage", some "Mar 05 2025 03:30 PM", some Zone.newYork,
          some "cal", none, none, none, []⟩
        ⟨some "tok", CalResp.ok⟩ =
      (⟨200, "success"⟩,
        [NetCall.googleTokenExchange,
          NetCall.calendarCreate
            ⟨some "cal", "Default Event Name", "No Location Provided",
              "No Description", none, Zone.newYork,
              some "2025-03-05T10:30:00.000-05:00", Zone.newYork, []⟩]) ∧
    (200 : Nat) ≠ 400 := by
  refine ⟨by decide, by decide⟩

/-- C8, amended: only the part_000 create variant guards the date grammar:
whenever `convertToISO` fails on StartUse or EndUse (including a missing
field), it answers HTTP 400 ("Invalid date format for StartUse or EndUse")
and its trace shows no calendar create call — only the token exchange that
already happened; the primary variant issues the create call regardless,
and neither variant validates the record id. -/
theorem c8_v2_format_guard (req : CreateReq) (env : CreateEnv) (tok : String)
    (htok : env.googleToken = some tok)
    (hbad : req.StartUse.bind
        (fun s => convertToISO s (req.timeZone.getD Zone.newYork)) = none ∨
      req.EndUse.bind
        (fun s => convertToISO s (req.timeZone.getD Zone.newYork)) = none) :
    createEventV2 req env =
      (⟨400, "Invalid date format for StartUse or EndUse"⟩,
        [NetCall.googleTokenExchange]) := by
  obtain ⟨su, eu, tz, cid, sm, lo, de, at'⟩ := req
  simp only at htok hbad ⊢
  cases hS : su.bind (fun s => convertToISO s (tz.getD Zone.newYork)) with
  | none =>
    cases hE : eu.bind (fun s => convertToISO s (tz.getD Zone.newYork)) with
    | none => simp [createEventV2, htok, hS, hE]
    | some e => simp [createEventV2, htok, hS, hE]
  | some s =>
    cases hE : eu.bind (fun s => convertToISO s (tz.getD Zone.newYork)) with
    | none => simp [createEventV2, htok, hS, hE]
    | some e =>
      rw [hS, hE] at hbad
      rcases hbad with h | h <;> exact absurd h (by simp)

/-- C8, witness: the guard applied at a request whose StartUse does not
match the grammar. -/
theorem c8_witness :
    (⟨some "tok", CalResp.ok⟩ : CreateEnv).googleToken = some "tok" ∧
    ((⟨some "garbage", some "Mar 05 2025 03:30 PM", some Zone.newYork,
        some "cal", none, none, none, []⟩ : CreateReq).StartUse.bind
      (fun s => convertToISO s
        ((⟨some "garbage", some "Mar 05 2025 03:30 PM", some Zone.newYork,
            some "cal", none, none, none, []⟩ : CreateReq).timeZone.getD
          Zone.newYork)) = none ∨
     (⟨some "garbage", some "Mar 05 2025 03:30 PM", some Zone.newYork,
        some "cal", none, none, none, []⟩ : CreateReq).EndUse.bind
      (fun s => convertToISO s
        ((⟨some "garbage", some "Mar 05 2025 03:30 PM", some Zone.newYork,
            some "cal", none, none, none, []⟩ : CreateReq).timeZone.getD
          Zone.newYork)) = none) ∧
    createEventV2
        ⟨some "garbage", some "Mar 05 2025 03:30 PM", some Zone.newYork,
          some "cal", none, none, none, []⟩
        ⟨some "tok", CalResp.ok⟩ =
      (⟨400, "Invalid date format for StartUse or EndUse"⟩,
        [NetCall.googleTokenExchange]) :=
  ⟨rfl, Or.inl (by decide),
    c8_v2_format_guard
      ⟨some "garbage", some "Mar 05 2025 03:30 PM", some Zone.newYork,
        some "cal", none, none, none, []⟩
      ⟨some "tok", CalResp.ok⟩ "tok" rfl (Or.inl (by decide))⟩

/-! ## Claim C9 -/

/-- C9: every registry update issued by the POST update handler is
addressed by the record id extracted from the description and writes
exactly two fields, StartUse and EndUse, each as a single row (row 0) with
a single scalar value — and nothing else: the trace holds exactly the
refresh and that one update call. -/
theorem c9_update_payload_shape (sys : Zone) (req : UpdateReq) (env : UpdateEnv)
    (i : String) (st en : EventTimeField) (desc rid tok : String)
    (hid : req.id = some i) (hst : req.start = some st) (hen : req.end_ = some en)
    (hdesc : req.description = some desc)
    (hrid : recordIdMatch desc = some rid)
    (htok : env.alchemyToken = some tok) :
    (updateAlchemyPost sys req env).2 =
      [NetCall.alchemyRefresh,
        NetCall.alchemyUpdate (mkAlchemyPayload rid
          (isoToDisplay st.dateTime st.timeZone sys)
          (isoToDisplay en.dateTime en.timeZone sys))] ∧
    (mkAlchemyPayload rid
        (isoToDisplay st.dateTime st.timeZone sys)
        (isoToDisplay en.dateTime en.timeZone sys)).recordId = rid ∧
    (mkAlchemyPayload rid
        (isoToDisplay st.dateTime st.timeZone sys)
        (isoToDisplay en.dateTime en.timeZone sys)).fields.map
      AlchemyField.identifier = ["StartUse", "EndUse"] ∧
    ∀ fld ∈ (mkAlchemyPayload rid
        (isoToDisplay st.dateTime st.timeZone sys)
        (isoToDisplay en.dateTime en.timeZone sys)).fields,
      fld.rows.map (fun r => (r.row, r.values.length)) = [(0, 1)] := by
  obtain ⟨id, st', en', desc'⟩ := req
  simp only at hid hst hen hdesc
  subst hid hst hen hdesc
  refine ⟨?_, rfl, rfl, ?_⟩
  · cases hok : env.updateOk <;>
      simp [updateAlchemyPost, hrid, htok, hok]
  · intro fld hfld
    simp only [mkAlchemyPayload, List.mem_cons, List.not_mem_nil, or_false] at hfld
    rcases hfld with rfl | rfl <;> rfl

/-- C9, witness: the payload-shape theorem at the spec's own example
event. -/
theorem c9_witness :
    recordIdMatch "Room booking 1001" = some "1001" ∧
    (updateAlchemyPost Zone.utc
        ⟨some "evt1",
          some ⟨some "2025-03-05T14:30:00-05:00", some Zone.newYork⟩,
          some ⟨some "2025-03-05T15:30:00-05:00", some Zone.newYork⟩,
          some "Room booking 1001"⟩
        ⟨some "tok", true⟩).2 =
      [NetCall.alchemyRefresh,
        NetCall.alchemyUpdate (mkAlchemyPayload "1001"
          (isoToDisplay (some "2025-03-05T14:30:00-05:00") (some Zone.newYork)
            Zone.utc)
          (isoToDisplay (some "2025-03-05T15:30:00-05:00") (some Zone.newYork)
            Zone.utc))] :=
  ⟨by simp +decide [recordIdMatch, firstRunAux],
    (c9_update_payload_shape Zone.utc
      ⟨some "evt1",
        some ⟨some "2025-03-05T14:30:00-05:00", some Zone.newYork⟩,
        some ⟨some "2025-03-05T15:30:00-05:00", some Zone.newYork⟩,
        some "Room booking 1001"⟩
      ⟨some "tok", true⟩ "evt1"
      ⟨some "2025-03-05T14:30:00-05:00", some Zone.newYork⟩
      ⟨some "2025-03-05T15:30:00-05:00", some Zone.newYork⟩
      "Room booking 1001" "1001" "tok" rfl rfl rfl rfl
      (by simp +decide [recordIdMatch, firstRunAux]) rfl).1⟩

/-! ## Claim C10 -/

/-- C10: in the primary create variant, when both StartUse and EndUse fail
to convert, the nulls flow through the end-after-start check
(`null <= null` is true, so the correction branch runs, and
`DateTime.fromISO(null)…toISO()` is null again) and the handler issues the
calendar create call with null start and end dateTimes — the response is
never a 400. -/
theorem c10_null_propagation (sys : Zone) (req : CreateReq) (env : CreateEnv)
    (tok : String) (htok : env.googleToken = some tok)
    (hS : convertAlchemyDateOpt req.StartUse (req.timeZone.getD Zone.newYork) = none)
    (hE : convertAlchemyDateOpt req.EndUse (req.timeZone.getD Zone.newYork) = none) :
    jsLeOpt none none = true ∧
    plusOneHourISO sys none = none ∧
    (createEventMain sys req env).2 =
      [NetCall.googleTokenExchange,
        NetCall.calendarCreate
          ⟨req.calendarId, req.summary.getD "Default Event Name",
            req.location.getD "No Location Provided",
            req.description.getD "No Description",
            none, req.timeZone.getD Zone.newYork,
            none, req.timeZone.getD Zone.newYork, req.attendees⟩] ∧
    (createEventMain sys req env).1.status ≠ 400 := by
  obtain ⟨su, eu, tz, cid, sm, lo, de, at'⟩ := req
  simp only at htok hS hE ⊢
  refine ⟨rfl, rfl, ?_, ?_⟩ <;>
    cases hcal : env.calendar <;>
      simp [createEventMain, htok, hS, hE, hcal, jsLeOpt, plusOneHourISO]

/-- C10, witness: both conversions fail on unparseable strings and the
calendar call is still issued with null dateTimes. -/
theorem c10_witness :
    (⟨some "tok", CalResp.ok⟩ : CreateEnv).googleToken = some "tok" ∧
    convertAlchemyDateOpt (some "garbage") Zone.newYork = none ∧
    (createEventMain Zone.utc
        ⟨some "garbage", some "also bad", some Zone.newYork, some "cal",
          none, none, none, []⟩
        ⟨some "tok", CalResp.ok⟩).2 =
      [NetCall.googleTokenExchange,
        NetCall.calendarCreate
          ⟨some "cal", "Default Event Name", "No Location Provided",
            "No Description", none, Zone.newYork, none, Zone.newYork, []⟩] :=
  ⟨rfl, by decide,
    (c10_null_propagation Zone.utc
      ⟨some "garbage", some "also bad", some Zone.newYork, some "cal",
        none, none, none, []⟩
      ⟨some "tok", CalResp.ok⟩ "tok" rfl (by decide) (by decide)).2.2.1⟩

end CalMw
